import Mathlib

/-!
Verification development for the secevent SET library core
(builder, parser/validator, event factory helpers).

The TypeScript source is shallowly embedded: JavaScript runtime values are
the inductive `JsValue`, JS objects are ordered association lists with the
"assign replaces in place" update of real JS objects, thrown JS values are
`JsErr` (an `Error` message, or a non-`Error` throw), and the external
`jose` / WHATWG-URL collaborators are explicit oracle parameters.
-/

namespace SecEvent

/-- Embedding of JavaScript runtime values (the JSON values plus
`undefined`, which a JS object field can hold). -/
inductive JsValue where
  | undef : JsValue
  | null : JsValue
  | bool (b : Bool) : JsValue
  | num (n : Int) : JsValue
  | str (s : String) : JsValue
  | arr (elems : List JsValue) : JsValue
  | obj (fields : List (String × JsValue)) : JsValue

/-- A JS object: ordered association list of own properties. -/
abbrev JsObj := List (String × JsValue)

/-- The JS `typeof` operator on an embedded value. -/
def jsTypeof : JsValue → String
  | .undef => "undefined"
  | .null => "object"
  | .bool _ => "boolean"
  | .num _ => "number"
  | .str _ => "string"
  | .arr _ => "object"
  | .obj _ => "object"

/-- JS truthiness of an embedded value. -/
def jsTruthy : JsValue → Bool
  | .undef => false
  | .null => false
  | .bool b => b
  | .num n => n != 0
  | .str s => s != ""
  | .arr _ => true
  | .obj _ => true

/-- Property read `o[k]`: `undefined` when the key is absent. -/
def jsGet : JsObj → String → JsValue
  | [], _ => .undef
  | (k, v) :: rest, key => if k == key then v else jsGet rest key

/-- Membership test `k in o`. -/
def jsHas (o : JsObj) (key : String) : Bool :=
  o.any (fun kv => kv.1 == key)

/-- Property write `o[k] = v`: updates in place if the key exists
(keeping its position, as JS objects do), else appends. -/
def jsSet : JsObj → String → JsValue → JsObj
  | [], key, v => [(key, v)]
  | (k, w) :: rest, key, v =>
    if k == key then (k, v) :: rest else (k, w) :: jsSet rest key v

/-- Object spread `{...a, ...b}`: assigns every own property of `b`
onto `a`, in order. -/
def jsSpread (a b : JsObj) : JsObj :=
  b.foldl (fun acc kv => jsSet acc kv.1 kv.2) a

/-- `Object.keys` on an arbitrary value: own enumerable keys of an object,
index strings of an array or string, empty for the other primitives
(JS boxes them to key-less wrappers). -/
def jsKeysOf : JsValue → List String
  | .obj fields => fields.map Prod.fst
  | .arr elems => (List.range elems.length).map toString
  | .str s => (List.range s.length).map toString
  | _ => []

/-- A thrown JS value: `some msg` for an `Error` with that message,
`none` for a non-`Error` throw. -/
abbrev JsErr := Option String

/-- The message extraction `e instanceof Error ? e.message : 'Unknown error'`
used by the `catch` block of `verify`. -/
def jsErrMessage : JsErr → String
  | some msg => msg
  | none => "Unknown error"

/-! JS truthiness of optional string / number / value bindings
(`!this.issuer`, `this.iat || ...`, `if (this.audience)` …). -/

/-- Truthiness of a possibly-unset string field. -/
def truthyOptStr : Option String → Bool
  | some s => s != ""
  | none => false

/-- Truthiness of a possibly-unset number field. -/
def truthyOptNum : Option Int → Bool
  | some n => n != 0
  | none => false

/-- Truthiness of a possibly-unset JS value field. -/
def truthyOptVal : Option JsValue → Bool
  | some v => jsTruthy v
  | none => false

/-- Embedding of an omitted-or-supplied string argument as the JS value a
shorthand object property binds (`undefined` when the argument was omitted). -/
def jsOfOptStr : Option String → JsValue
  | none => .undef
  | some s => .str s

/-- Embedding of an omitted-or-supplied number argument. -/
def jsOfOptNum : Option Int → JsValue
  | none => .undef
  | some n => .num n

/-- Embedding of an omitted-or-supplied object argument. -/
def jsOfOptObj : Option JsObj → JsValue
  | none => .undef
  | some o => .obj o

/-- `SigningKey` from `src/types/secevent.ts`: key id, algorithm, and
opaque key material (owned by the external cryptography collaborator). -/
structure SigningKey where
  kid : Option String := none
  alg : String
  key : JsValue

/-- `BuilderOptions` from `src/builder/builder.ts`. The `idGenerator`
option is an external collaborator; its `generate()` result enters
`buildPayload` as an explicit argument. -/
structure BuilderOptions where
  defaultIssuer : Option String := none
  defaultAudience : Option JsValue := none
  signingKey : Option SigningKey := none

/-- The mutable state of a `SecEventBuilder` instance. -/
structure SecEventBuilder where
  options : BuilderOptions
  issuer : Option String := none
  audience : Option JsValue := none
  jti : Option String := none
  iat : Option Int := none
  txn : Option String := none
  events : JsObj := []
  additionalClaims : JsObj := []
  signingKey : Option SigningKey := none

namespace SecEventBuilder

/-- `new SecEventBuilder(options)` / `createBuilder(options)`: copies the
configured defaults into the instance fields when they are defined. -/
def createBuilder (options : BuilderOptions) : SecEventBuilder :=
  { options := options
    issuer := options.defaultIssuer
    audience := options.defaultAudience
    signingKey := options.signingKey }

/-- `withIssuer(issuer)`. -/
def withIssuer (b : SecEventBuilder) (issuer : String) : SecEventBuilder :=
  { b with issuer := some issuer }

/-- `withAudience(audience)` (`audience` is a string or string array). -/
def withAudience (b : SecEventBuilder) (audience : JsValue) : SecEventBuilder :=
  { b with audience := some audience }

/-- `withJti(jti)`. -/
def withJti (b : SecEventBuilder) (jti : String) : SecEventBuilder :=
  { b with jti := some jti }

/-- `withIat(iat)`. -/
def withIat (b : SecEventBuilder) (iat : Int) : SecEventBuilder :=
  { b with iat := some iat }

/-- `withTxn(txn)`. -/
def withTxn (b : SecEventBuilder) (txn : String) : SecEventBuilder :=
  { b with txn := some txn }

/-- `withEvent(event)`: `this.events = {...this.events, ...event}`. -/
def withEvent (b : SecEventBuilder) (event : JsObj) : SecEventBuilder :=
  { b with events := jsSpread b.events event }

/-- `withEvents(...events)`: folds `withEvent` over the arguments. -/
def withEvents (b : SecEventBuilder) (events : List JsObj) : SecEventBuilder :=
  events.foldl withEvent b

/-- `withClaim(key, value)`: `this.additionalClaims[key] = value`. -/
def withClaim (b : SecEventBuilder) (key : String) (value : JsValue) : SecEventBuilder :=
  { b with additionalClaims := jsSet b.additionalClaims key value }

/-- `withClaims(claims)`: `this.additionalClaims = {...this.additionalClaims, ...claims}`. -/
def withClaims (b : SecEventBuilder) (claims : JsObj) : SecEventBuilder :=
  { b with additionalClaims := jsSpread b.additionalClaims claims }

/-- `withSigningKey(key)`. -/
def withSigningKey (b : SecEventBuilder) (key : SigningKey) : SecEventBuilder :=
  { b with signingKey := some key }

/-- The value `this.jti || idGenerator.generate()` (`genId` is the
generator's next value). -/
def jtiValue (jti : Option String) (genId : String) : String :=
  match jti with
  | some j => if j != "" then j else genId
  | none => genId

/-- The value `this.iat || Math.floor(Date.now() / 1000)` (`nowSec` is the
current time in whole seconds). -/
def iatValue (iat : Option Int) (nowSec : Int) : Int :=
  match iat with
  | some i => if i != 0 then i else nowSec
  | none => nowSec

/-- `buildPayload()`. The external reads — the ID generator's next value
and the current time in whole seconds — are passed in as `genId` and
`nowSec`. -/
def buildPayload (b : SecEventBuilder) (genId : String) (nowSec : Int) :
    Except JsErr JsObj :=
  if !truthyOptStr b.issuer then .error (some "Issuer is required")
  else if (jsKeysOf (.obj b.events)).length == 0 then
    .error (some "At least one event is required")
  else
    let base : JsObj :=
      [("iss", .str (b.issuer.getD "")),
       ("jti", .str (jtiValue b.jti genId)),
       ("iat", .num (iatValue b.iat nowSec)),
       ("events", .obj b.events)]
    let payload := jsSpread base b.additionalClaims
    let payload :=
      if truthyOptVal b.audience then jsSet payload "aud" (b.audience.getD .undef)
      else payload
    let payload :=
      if truthyOptStr b.txn then jsSet payload "txn" (.str (b.txn.getD ""))
      else payload
    .ok payload

/-- `reset()`. -/
def reset (b : SecEventBuilder) : SecEventBuilder :=
  { options := b.options
    issuer := b.options.defaultIssuer
    audience := b.options.defaultAudience
    jti := none
    iat := none
    txn := none
    events := []
    additionalClaims := []
    signingKey := b.options.signingKey }

end SecEventBuilder

/-! Event-type URI constants and the `Events` factory helpers from
`src/types/events.ts`. -/

namespace CAEP_EVENT_TYPES

def SESSION_REVOKED : String :=
  "https://schemas.openid.net/secevent/caep/event-type/session-revoked"

def TOKEN_CLAIMS_CHANGE : String :=
  "https://schemas.openid.net/secevent/caep/event-type/token-claims-change"

def CREDENTIAL_CHANGE : String :=
  "https://schemas.openid.net/secevent/caep/event-type/credential-change"

def ASSURANCE_LEVEL_CHANGE : String :=
  "https://schemas.openid.net/secevent/caep/event-type/assurance-level-change"

def DEVICE_COMPLIANCE_CHANGE : String :=
  "https://schemas.openid.net/secevent/caep/event-type/device-compliance-change"

end CAEP_EVENT_TYPES

namespace SSF_EVENT_TYPES

def STREAM_UPDATED : String :=
  "https://schemas.openid.net/secevent/ssf/event-type/stream-updated"

def VERIFICATION : String :=
  "https://schemas.openid.net/secevent/ssf/event-type/verification"

end SSF_EVENT_TYPES

namespace Events

/-- `Events.sessionRevoked(subject, timestamp, reason?)`. The shorthand
`reason` property is always written; an omitted argument binds `undefined`. -/
def sessionRevoked (subject : JsValue) (timestamp : Int)
    (reason : Option String) : JsObj :=
  [(CAEP_EVENT_TYPES.SESSION_REVOKED,
    .obj [("subject", subject),
          ("event_timestamp", .num timestamp),
          ("reason", jsOfOptStr reason)])]

/-- `Events.tokenClaimsChange(subject, timestamp, claims?)`. -/
def tokenClaimsChange (subject : JsValue) (timestamp : Int)
    (claims : Option JsObj) : JsObj :=
  [(CAEP_EVENT_TYPES.TOKEN_CLAIMS_CHANGE,
    .obj [("subject", subject),
          ("event_timestamp", .num timestamp),
          ("claims", jsOfOptObj claims)])]

/-- `Events.credentialChange(subject, timestamp, options?)`: the optional
fields enter via `...options`, which spreads nothing when omitted. -/
def credentialChange (subject : JsValue) (timestamp : Int)
    (options : Option JsObj) : JsObj :=
  [(CAEP_EVENT_TYPES.CREDENTIAL_CHANGE,
    .obj (jsSpread [("subject", subject), ("event_timestamp", .num timestamp)]
      (options.getD [])))]

/-- `Events.assuranceLevelChange(subject, timestamp, options?)`. -/
def assuranceLevelChange (subject : JsValue) (timestamp : Int)
    (options : Option JsObj) : JsObj :=
  [(CAEP_EVENT_TYPES.ASSURANCE_LEVEL_CHANGE,
    .obj (jsSpread [("subject", subject), ("event_timestamp", .num timestamp)]
      (options.getD [])))]

/-- `Events.deviceComplianceChange(subject, timestamp, options?)`. -/
def deviceComplianceChange (subject : JsValue) (timestamp : Int)
    (options : Option JsObj) : JsObj :=
  [(CAEP_EVENT_TYPES.DEVICE_COMPLIANCE_CHANGE,
    .obj (jsSpread [("subject", subject), ("event_timestamp", .num timestamp)]
      (options.getD [])))]

/-- `Events.streamUpdated(effectiveTime?)`. -/
def streamUpdated (effectiveTime : Option Int) : JsObj :=
  [(SSF_EVENT_TYPES.STREAM_UPDATED,
    .obj [("effective_time", jsOfOptNum effectiveTime)])]

/-- `Events.verification(state?)`. -/
def verification (state : Option String) : JsObj :=
  [(SSF_EVENT_TYPES.VERIFICATION,
    .obj [("state", jsOfOptStr state)])]

end Events

/-! The parser/validator from `src/parser/parser.ts`. -/

/-- `ValidationOptions` from `src/types/secevent.ts` (`issuer` and
`audience` are strings or string arrays; `currentDate` is a `Date`,
embedded as epoch milliseconds). -/
structure ValidationOptions where
  issuer : Option JsValue := none
  audience : Option JsValue := none
  clockTolerance : Option Int := none
  currentDate : Option Int := none
  requiredClaims : Option (List String) := none
  maxTokenAge : Option Int := none

/-- `ParserOptions` from `src/parser/parser.ts`. -/
structure ParserOptions where
  jwksUrl : Option String := none
  verificationKeys : Option (List SigningKey) := none
  defaultValidationOptions : Option ValidationOptions := none

/-- A `SecEventParser` instance: its constructor options plus the `jwks`
field, which the constructor sets (to a resolver for the configured URL)
exactly when `options.jwksUrl` is truthy. -/
structure SecEventParser where
  options : ParserOptions
  jwks : Option String

/-- The subset of `jose`'s `JWTVerifyOptions` that `verify` populates. -/
structure JWTVerifyOptions where
  issuer : Option JsValue := none
  audience : Option JsValue := none
  clockTolerance : Option Int := none
  currentDate : Option Int := none
  maxTokenAge : Option String := none

/-- `ValidationResult` from `src/types/secevent.ts`. -/
structure ValidationResult where
  valid : Bool
  payload : Option JsObj := none
  error : Option String := none
  errors : Option (List String) := none

/-- The external collaborators: `jose`'s `jwtVerify` (called with key
material, or with the remote JWKS resolver identified by its URL),
`jose`'s `decodeJwt`, and the platform WHATWG `URL` constructor
(`urlProtocol s` is the `protocol` of `new URL(s)`, `none` when the
constructor throws). Each may fail with an arbitrary thrown value. -/
structure JoseOps where
  jwtVerifyWithKey : String → JsValue → JWTVerifyOptions → Except JsErr JsObj
  jwtVerifyWithJwks : String → String → JWTVerifyOptions → Except JsErr JsObj
  decodeJwt : String → Except JsErr JsObj
  urlProtocol : String → Option String

namespace SecEventParser

/-- `new SecEventParser(options)` / `createParser(options)`. -/
def createParser (options : ParserOptions) : SecEventParser :=
  { options := options
    jwks :=
      match options.jwksUrl with
      | some url => if url != "" then some url else none
      | none => none }

/-- The test `!payload.events || typeof payload.events !== 'object'`. -/
def structEventsBad (payload : JsObj) : Bool :=
  !jsTruthy (jsGet payload "events") || jsTypeof (jsGet payload "events") != "object"

/-- The test `!payload.iss || typeof payload.iss !== 'string'`. -/
def structIssBad (payload : JsObj) : Bool :=
  !jsTruthy (jsGet payload "iss") || jsTypeof (jsGet payload "iss") != "string"

/-- The test `!payload.jti || typeof payload.jti !== 'string'`. -/
def structJtiBad (payload : JsObj) : Bool :=
  !jsTruthy (jsGet payload "jti") || jsTypeof (jsGet payload "jti") != "string"

/-- The test `typeof payload.iat !== 'number'`. -/
def structIatBad (payload : JsObj) : Bool :=
  jsTypeof (jsGet payload "iat") != "number"

/-- `validatePayloadStructure(payload)`: the shared structural checks. -/
def validatePayloadStructure (payload : JsObj) : Except JsErr Unit :=
  if structEventsBad payload then
    .error (some "Missing or invalid events claim")
  else if structIssBad payload then
    .error (some "Missing or invalid issuer claim")
  else if structJtiBad payload then
    .error (some "Missing or invalid jti claim")
  else if structIatBad payload then
    .error (some "Missing or invalid iat claim")
  else .ok ()

/-- `decode(jwt)`: `decodeJwt` then structural validation; both throw. -/
def decode (ops : JoseOps) (jwt : String) : Except JsErr JsObj := do
  let payload ← ops.decodeJwt jwt
  let _ ← validatePayloadStructure payload
  pure payload

/-- `isValidEventUri(uri)`: `new URL(uri)` must succeed and its protocol
must be `https:` or `http:`. -/
def isValidEventUri (urlProtocol : String → Option String) (uri : String) : Bool :=
  match urlProtocol uri with
  | some proto => proto == "https:" || proto == "http:"
  | none => false

/-- `validateSecEvent(payload, options)`: accumulates the structural
error (if any), an error per missing required claim, the empty-events
error, and an error per invalid event URI, in the source's push order.
(`if (options.requiredClaims)` is a truthiness test on an array, which
is truthy even when empty, so present-but-empty and absent behave
alike.) -/
def validateSecEvent (urlProtocol : String → Option String) (payload : JsObj)
    (options : ValidationOptions) : List String :=
  let structErrors : List String :=
    match validatePayloadStructure payload with
    | .ok _ => []
    | .error e =>
      [match e with
       | some msg => msg
       | none => "Invalid payload structure"]
  let reqErrors : List String :=
    match options.requiredClaims with
    | some claims =>
      claims.filterMap fun claim =>
        if jsHas payload claim then none
        else some ("Missing required claim: " ++ claim)
    | none => []
  let eventErrors : List String :=
    if jsTruthy (jsGet payload "events") then
      let eventKeys := jsKeysOf (jsGet payload "events")
      (if eventKeys.length == 0 then ["No events present in events claim"] else [])
        ++ eventKeys.filterMap fun uri =>
          if isValidEventUri urlProtocol uri then none
          else some ("Invalid event URI format: " ++ uri)
    else []
  structErrors ++ reqErrors ++ eventErrors

/-- The merge `{...this.options.defaultValidationOptions, ...options}`:
per-field, a field supplied by the call wins, else the configured
default. -/
def mergeValidationOptions (defaults overrides : Option ValidationOptions) :
    ValidationOptions :=
  { issuer := (overrides.bind ValidationOptions.issuer) <|> (defaults.bind ValidationOptions.issuer)
    audience := (overrides.bind ValidationOptions.audience) <|> (defaults.bind ValidationOptions.audience)
    clockTolerance := (overrides.bind ValidationOptions.clockTolerance) <|> (defaults.bind ValidationOptions.clockTolerance)
    currentDate := (overrides.bind ValidationOptions.currentDate) <|> (defaults.bind ValidationOptions.currentDate)
    requiredClaims := (overrides.bind ValidationOptions.requiredClaims) <|> (defaults.bind ValidationOptions.requiredClaims)
    maxTokenAge := (overrides.bind ValidationOptions.maxTokenAge) <|> (defaults.bind ValidationOptions.maxTokenAge) }

/-- The `jwtOptions` object `verify` hands to the external verifier:
each merged field is copied under a truthiness guard (`currentDate` is a
`Date` object, which is always truthy; `maxTokenAge` is rendered as
`` `${n}s` ``). -/
def mkJwtVerifyOptions (merged : ValidationOptions) : JWTVerifyOptions :=
  { issuer :=
      match merged.issuer with
      | some v => if jsTruthy v then some v else none
      | none => none
    audience :=
      match merged.audience with
      | some v => if jsTruthy v then some v else none
      | none => none
    clockTolerance :=
      match merged.clockTolerance with
      | some n => if n != 0 then some n else none
      | none => none
    currentDate := merged.currentDate
    maxTokenAge :=
      match merged.maxTokenAge with
      | some n => if n != 0 then some (toString n ++ "s") else none
      | none => none }

/-- The candidate-key determination at the top of `verify`: an explicit
argument (normalized to an array) wins, else the statically configured
keys. -/
def selectedKeys (verificationKey : Option (SigningKey ⊕ List SigningKey))
    (options : ParserOptions) : Option (List SigningKey) :=
  match verificationKey with
  | some (.inl k) => some [k]
  | some (.inr ks) => some ks
  | none => options.verificationKeys

/-- The sequential key-trial loop of `verify`: try each key in order,
stop at the first success, remember the last error; after exhaustion
throw the last error, or a generic failure if no key was ever tried. -/
def tryKeys (ops : JoseOps) (jwt : String) (jwtOptions : JWTVerifyOptions) :
    List SigningKey → Option JsErr → Except JsErr JsObj
  | [], lastError =>
    .error (lastError.getD (some "Verification failed with all provided keys"))
  | k :: rest, _lastError =>
    match ops.jwtVerifyWithKey jwt k.key jwtOptions with
    | .ok payload => .ok payload
    | .error e => tryKeys ops jwt jwtOptions rest (some e)

/-- The cryptographic stage of `verify`: the no-method precheck, then the
JWKS resolver if the parser has one, else the key-trial loop over the
selected keys (the final `else` branch of the source is unreachable
because the precheck already threw). -/
def cryptoVerify (ops : JoseOps) (p : SecEventParser) (jwt : String)
    (verificationKey : Option (SigningKey ⊕ List SigningKey))
    (jwtOptions : JWTVerifyOptions) : Except JsErr JsObj :=
  let keys := selectedKeys verificationKey p.options
  if keys.isNone && p.jwks.isNone then
    .error (some "No verification key or JWKS URL provided")
  else
    match p.jwks with
    | some jwksUrl => ops.jwtVerifyWithJwks jwt jwksUrl jwtOptions
    | none =>
      match keys with
      | some ks => tryKeys ops jwt jwtOptions ks none
      | none => .error (some "No verification method available")

/-- `verify(jwt, verificationKey?, options?)`: merge options, run the
cryptographic stage, then the SET-specific validation; the surrounding
`try`/`catch` turns any thrown value into `{valid: false, error: message}`. -/
def verify (ops : JoseOps) (p : SecEventParser) (jwt : String)
    (verificationKey : Option (SigningKey ⊕ List SigningKey))
    (options : Option ValidationOptions) : ValidationResult :=
  let mergedOptions := mergeValidationOptions p.options.defaultValidationOptions options
  let jwtOptions := mkJwtVerifyOptions mergedOptions
  match cryptoVerify ops p jwt verificationKey jwtOptions with
  | .error e => { valid := false, error := some (jsErrMessage e) }
  | .ok payload =>
    let validationErrors := validateSecEvent ops.urlProtocol payload mergedOptions
    if validationErrors.length > 0 then
      { valid := false
        errors := some validationErrors
        error := some (String.intercalate "; " validationErrors) }
    else
      { valid := true, payload := some payload }

end SecEventParser

/-! Concrete fixtures used by witnesses and counterexamples. -/

/-- A structurally and semantically valid payload whose single event key
parses as an `https:` URL under `urlOracle`. -/
def goodPayload : JsObj :=
  [("iss", .str "https://issuer.example"), ("jti", .str "id-1"),
   ("iat", .num 1700000000),
   ("events", .obj [("https://events.example/type", .obj [])])]

/-- A platform-URL oracle that accepts exactly the key of `goodPayload`. -/
def urlOracle : String → Option String :=
  fun s => if s == "https://events.example/type" then some "https:" else none

def keyGood : SigningKey := { alg := "HS256", key := .str "good" }

def keyBad : SigningKey := { alg := "HS256", key := .str "bad" }

/-- External ops whose remote-JWKS verification succeeds while every
per-key verification throws. -/
def opsJwksOk : JoseOps :=
  { jwtVerifyWithKey := fun _ _ _ => .error (some "explicit key tried")
    jwtVerifyWithJwks := fun _ _ _ => .ok goodPayload
    decodeJwt := fun _ => .error none
    urlProtocol := urlOracle }

/-- External ops that accept exactly the key material `"good"`. -/
def opsKeys : JoseOps :=
  { jwtVerifyWithKey := fun _ key _ =>
      match key with
      | .str "good" => .ok goodPayload
      | _ => .error (some "bad key")
    jwtVerifyWithJwks := fun _ _ _ => .error none
    decodeJwt := fun _ => .error none
    urlProtocol := urlOracle }

/-- External ops whose verifier throws an `Error` with an empty message. -/
def opsEmptyMsg : JoseOps :=
  { jwtVerifyWithKey := fun _ _ _ => .error (some "")
    jwtVerifyWithJwks := fun _ _ _ => .error (some "")
    decodeJwt := fun _ => .error none
    urlProtocol := fun _ => none }

/-- External ops whose `decodeJwt` returns the given claims. -/
def opsDecode (payload : JsObj) : JoseOps :=
  { jwtVerifyWithKey := fun _ _ _ => .error none
    jwtVerifyWithJwks := fun _ _ _ => .error none
    decodeJwt := fun _ => .ok payload
    urlProtocol := fun _ => none }

/-- A payload whose `events` claim is an (empty) array. -/
def arrEventsPayload : JsObj :=
  [("iss", .str "a"), ("jti", .str "b"), ("iat", .num 1), ("events", .arr [])]

def parserJwks : SecEventParser :=
  SecEventParser.createParser { jwksUrl := some "https://jwks.example/keys" }

def parserPlain : SecEventParser := SecEventParser.createParser {}

def parserStaticBad : SecEventParser :=
  SecEventParser.createParser { verificationKeys := some [keyBad] }

/-- A structurally valid payload whose events mapping has two keys that
are not URLs. -/
def badUriPayload : JsObj :=
  [("iss", .str "a"), ("jti", .str "b"), ("iat", .num 1),
   ("events", .obj [("not-a-url", .obj []), ("also-bad", .obj [])])]

/-! Basic lemmas about the object operations. -/

@[simp] theorem jsGet_nil (key : String) : jsGet [] key = .undef := rfl

@[simp] theorem jsGet_cons (k : String) (v : JsValue) (rest : JsObj) (key : String) :
    jsGet ((k, v) :: rest) key = if k == key then v else jsGet rest key := rfl

@[simp] theorem jsHas_nil (key : String) : jsHas [] key = false := rfl

@[simp] theorem jsHas_cons (k : String) (v : JsValue) (rest : JsObj) (key : String) :
    jsHas ((k, v) :: rest) key = (k == key || jsHas rest key) := rfl

@[simp] theorem jsSet_nil (key : String) (v : JsValue) : jsSet [] key v = [(key, v)] := rfl

@[simp] theorem jsSet_cons (k : String) (w : JsValue) (rest : JsObj) (key : String) (v : JsValue) :
    jsSet ((k, w) :: rest) key v =
      if k == key then (k, v) :: rest else (k, w) :: jsSet rest key v := rfl

@[simp] theorem jsSpread_nil (a : JsObj) : jsSpread a [] = a := rfl

@[simp] theorem jsSpread_cons (a : JsObj) (kv : String × JsValue) (rest : JsObj) :
    jsSpread a (kv :: rest) = jsSpread (jsSet a kv.1 kv.2) rest := rfl

theorem jsGet_jsSet (o : JsObj) (key key' : String) (v : JsValue) :
    jsGet (jsSet o key v) key' = if key == key' then v else jsGet o key' := by
  induction o with
  | nil => by_cases h : key = key' <;> simp [h]
  | cons kv rest ih =>
    obtain ⟨ka, va⟩ := kv
    by_cases hka : ka = key
    · subst hka
      by_cases h : ka = key' <;> simp [h]
    · by_cases h : ka = key'
      · subst h
        simp [hka, ih, show ¬ key = ka from fun hc => hka hc.symm]
      · simp [hka, h, ih]

theorem jsHas_jsSet (o : JsObj) (key key' : String) (v : JsValue) :
    jsHas (jsSet o key v) key' = (key == key' || jsHas o key') := by
  induction o with
  | nil => simp
  | cons kv rest ih =>
    obtain ⟨ka, va⟩ := kv
    by_cases hka : ka = key
    · subst hka
      simp [Bool.or_assoc]
    · simp only [jsSet_cons, beq_iff_eq, hka, if_false, jsHas_cons, ih]
      cases h : (ka == key') <;> simp [h]

theorem jsGet_eq_of_not_has (o : JsObj) (key : String) (h : jsHas o key = false) :
    jsGet o key = .undef := by
  induction o with
  | nil => rfl
  | cons kv rest ih =>
    obtain ⟨ka, va⟩ := kv
    simp only [jsHas_cons, Bool.or_eq_false_iff] at h
    simp [h.1, ih h.2]

/-- Reading after a spread: a key of `b` (with `b`'s keys unambiguous)
reads `b`'s value, any other key falls through to `a`. -/
theorem jsGet_jsSpread (a b : JsObj) (key : String)
    (hnd : (b.map Prod.fst).Nodup) :
    jsGet (jsSpread a b) key = if jsHas b key then jsGet b key else jsGet a key := by
  induction b generalizing a with
  | nil => simp
  | cons kv rest ih =>
    obtain ⟨kb, vb⟩ := kv
    simp only [List.map_cons, List.nodup_cons] at hnd
    rw [jsSpread_cons, ih _ hnd.2]
    by_cases hk : kb = key
    · subst hk
      have hnotin : jsHas rest kb = false := by
        rw [Bool.eq_false_iff]
        intro hmem
        rcases List.any_eq_true.mp hmem with ⟨kv, hkv, hbeq⟩
        exact hnd.1 (List.mem_map.mpr ⟨kv, hkv, by simpa using hbeq⟩)
      simp [hnotin, jsGet_jsSet]
    · by_cases hrest : jsHas rest key
      · simp [hrest, hk]
      · simp [hrest, hk, jsGet_jsSet]

theorem jsHas_jsSpread (a b : JsObj) (key : String) :
    jsHas (jsSpread a b) key = (jsHas a key || jsHas b key) := by
  induction b generalizing a with
  | nil => simp
  | cons kv rest ih =>
    obtain ⟨kb, vb⟩ := kv
    rw [jsSpread_cons, ih, jsHas_jsSet]
    cases h : (kb == key) <;> simp [h, Bool.or_comm]

/-! Helper lemmas about `buildPayload`. -/

/-- Reading through a conditional property assignment. -/
theorem jsGet_if_set (o : JsObj) (cond : Bool) (k key : String) (v : JsValue) :
    jsGet (if cond = true then jsSet o k v else o) key =
      if cond = true ∧ key = k then v else jsGet o key := by
  by_cases h : cond = true
  · simp only [h, if_true, jsGet_jsSet, true_and]
    by_cases hk : k = key
    · subst hk
      simp
    · rw [if_neg (by simpa using hk), if_neg (fun hc => hk hc.symm)]
  · simp [h]

namespace SecEventBuilder

/-- Field-by-field description of a successfully built payload: `txn` and
`aud` (assigned after the spread, when truthy) win over everything, then
the spread custom claims, then the reserved base object. -/
theorem buildPayload_get (b : SecEventBuilder) (genId : String) (nowSec : Int)
    (hIss : truthyOptStr b.issuer = true) (hEv : b.events ≠ [])
    (hnd : (b.additionalClaims.map Prod.fst).Nodup) :
    ∃ p, b.buildPayload genId nowSec = .ok p ∧ ∀ key,
      jsGet p key =
        if truthyOptStr b.txn = true ∧ key = "txn" then .str (b.txn.getD "")
        else if truthyOptVal b.audience = true ∧ key = "aud" then b.audience.getD .undef
        else if jsHas b.additionalClaims key = true then jsGet b.additionalClaims key
        else jsGet [("iss", .str (b.issuer.getD "")),
                    ("jti", .str (jtiValue b.jti genId)),
                    ("iat", .num (iatValue b.iat nowSec)),
                    ("events", .obj b.events)] key := by
  have hkeys : ((jsKeysOf (.obj b.events)).length == 0) = false := by
    simp only [jsKeysOf, List.length_map, beq_eq_false_iff_ne, ne_eq,
      List.length_eq_zero]
    exact hEv
  unfold buildPayload
  rw [hIss, hkeys]
  simp only [Bool.not_true, Bool.false_eq_true, if_false]
  refine ⟨_, rfl, fun key => ?_⟩
  have hsp : ∀ (a : JsObj) (k : String),
      jsGet (jsSpread a b.additionalClaims) k =
        if jsHas b.additionalClaims k = true then jsGet b.additionalClaims k
        else jsGet a k :=
    fun a k => jsGet_jsSpread a _ k hnd
  simp only [jsGet_if_set, hsp]

end SecEventBuilder

/-! String helper lemmas for distinguishing the parser's error messages. -/

theorem strAppendLeftCancel (p a b : String) (h : p ++ a = p ++ b) : a = b := by
  apply String.ext
  have hd := congrArg String.data h
  rw [String.data_append, String.data_append] at hd
  exact List.append_cancel_left hd

theorem strAppendNe (p q : String)
    (h₁ : ¬ p.data <+: q.data) (h₂ : ¬ q.data <+: p.data) :
    ∀ a b : String, p ++ a ≠ q ++ b := by
  intro a b h
  have hd := congrArg String.data h
  rw [String.data_append, String.data_append] at hd
  rcases List.append_eq_append_iff.mp hd with ⟨c, hc, -⟩ | ⟨c, hc, -⟩
  · exact h₁ (hc ▸ List.prefix_append p.data c)
  · exact h₂ (hc ▸ List.prefix_append q.data c)

theorem strPrefixNeLit (pre m : String)
    (h₁ : ¬ pre.data <+: m.data) (h₂ : ¬ m.data <+: pre.data) :
    ∀ a : String, pre ++ a ≠ m := fun a h =>
  strAppendNe pre m h₁ h₂ a "" (by rw [h, String.append_empty])

theorem strAppendNeEmpty (p a : String) (hp : p ≠ "") : p ++ a ≠ "" := by
  intro h
  have hd := congrArg String.data h
  rw [String.data_append] at hd
  rcases List.append_eq_nil.mp hd with ⟨h1, -⟩
  exact hp (String.ext h1)

theorem intercalateGoSpec (s : String) (l : List String) :
    ∀ acc, ∃ t, String.intercalate.go acc s l = acc ++ t := by
  induction l with
  | nil => exact fun acc => ⟨"", by rw [String.append_empty]; rfl⟩
  | cons a as ih =>
    intro acc
    obtain ⟨t, ht⟩ := ih (acc ++ s ++ a)
    refine ⟨s ++ a ++ t, ?_⟩
    show String.intercalate.go (acc ++ s ++ a) s as = _
    rw [ht, String.append_assoc, String.append_assoc, String.append_assoc]

theorem intercalateNeEmpty (l : List String) (hne : l ≠ [])
    (h : ∀ x ∈ l, x ≠ "") : String.intercalate "; " l ≠ "" := by
  match l, hne with
  | a :: as, _ =>
    show String.intercalate.go a "; " as ≠ ""
    obtain ⟨t, ht⟩ := intercalateGoSpec "; " as a
    rw [ht]
    intro hc
    have hd := congrArg String.data hc
    rw [String.data_append] at hd
    rcases List.append_eq_nil.mp hd with ⟨h1, -⟩
    exact h a (List.mem_cons_self a as) (String.ext h1)

/-! Analysis lemmas for the parser's validation and verification paths. -/

namespace SecEventParser

/-- The structural validator only ever throws one of its four literal
messages. -/
theorem validatePayloadStructure_error_shape (payload : JsObj) (e : JsErr)
    (h : validatePayloadStructure payload = .error e) :
    e = some "Missing or invalid events claim" ∨
    e = some "Missing or invalid issuer claim" ∨
    e = some "Missing or invalid jti claim" ∨
    e = some "Missing or invalid iat claim" := by
  unfold validatePayloadStructure at h
  split_ifs at h <;> simp only [Except.error.injEq] at h <;> simp [← h]

/-- Every message in the semantic-validation error list is a structural
message, a missing-required-claim message, the empty-events message, or
an invalid-URI message for an actually invalid key of the events
value. -/
theorem validateSecEvent_mem (urlP : String → Option String) (payload : JsObj)
    (opts : ValidationOptions) (msg : String)
    (h : msg ∈ validateSecEvent urlP payload opts) :
    msg = "Missing or invalid events claim" ∨
    msg = "Missing or invalid issuer claim" ∨
    msg = "Missing or invalid jti claim" ∨
    msg = "Missing or invalid iat claim" ∨
    msg = "Invalid payload structure" ∨
    (∃ c, msg = "Missing required claim: " ++ c) ∨
    msg = "No events present in events claim" ∨
    (∃ k, k ∈ jsKeysOf (jsGet payload "events") ∧
      isValidEventUri urlP k = false ∧
      msg = "Invalid event URI format: " ++ k) := by
  unfold validateSecEvent at h
  rcases List.mem_append.mp h with h' | hev
  · rcases List.mem_append.mp h' with hs | hr
    · revert hs
      split
      · simp
      · rename_i e heq
        intro hs
        rcases e with - | m
        · simp only [List.mem_singleton] at hs
          simp [hs]
        · simp only [List.mem_singleton] at hs
          subst hs
          rcases validatePayloadStructure_error_shape payload _ heq with h1 | h1 | h1 | h1 <;>
            simp_all
    · revert hr
      split
      · rename_i claims heq
        intro hr
        rcases List.mem_filterMap.mp hr with ⟨c, hc, hcm⟩
        split_ifs at hcm
        simp only [Option.some.injEq] at hcm
        exact Or.inr (Or.inr (Or.inr (Or.inr (Or.inr (Or.inl ⟨c, hcm.symm⟩)))))
      · intro hr
        exact absurd hr (List.not_mem_nil msg)
  · revert hev
    split
    · intro hev
      rcases List.mem_append.mp hev with hcnt | huri
      · revert hcnt
        split <;> intro hcnt
        · simp only [List.mem_singleton] at hcnt
          simp [hcnt]
        · exact absurd hcnt (List.not_mem_nil msg)
      · rcases List.mem_filterMap.mp huri with ⟨k, hk, hkm⟩
        split_ifs at hkm with hvalid
        simp only [Option.some.injEq] at hkm
        exact Or.inr (Or.inr (Or.inr (Or.inr (Or.inr (Or.inr (Or.inr
          ⟨k, hk, by simpa using hvalid, hkm.symm⟩))))))
    · intro hev
      exact absurd hev (List.not_mem_nil msg)

/-- Every message in the semantic-validation error list is non-empty. -/
theorem validateSecEvent_mem_ne_empty (urlP : String → Option String)
    (payload : JsObj) (opts : ValidationOptions) (msg : String)
    (h : msg ∈ validateSecEvent urlP payload opts) : msg ≠ "" := by
  rcases validateSecEvent_mem urlP payload opts msg h with
    h1 | h1 | h1 | h1 | h1 | ⟨c, h1⟩ | h1 | ⟨k, -, -, h1⟩ <;> subst h1
  · decide
  · decide
  · decide
  · decide
  · decide
  · exact strAppendNeEmpty _ _ (by decide)
  · decide
  · exact strAppendNeEmpty _ _ (by decide)

/-- Any error out of the key-trial loop is the generic exhaustion error,
an error thrown by the external verifier on one of the tried keys, or
the incoming last-error accumulator. -/
theorem tryKeys_error_shape (ops : JoseOps) (jwt : String)
    (jwtOptions : JWTVerifyOptions) (ks : List SigningKey)
    (lastError : Option JsErr) (e : JsErr)
    (h : tryKeys ops jwt jwtOptions ks lastError = .error e) :
    e = some "Verification failed with all provided keys" ∨
    (∃ k, k ∈ ks ∧ ops.jwtVerifyWithKey jwt k.key jwtOptions = .error e) ∨
    lastError = some e := by
  induction ks generalizing lastError with
  | nil =>
    unfold tryKeys at h
    rcases lastError with - | e'
    · simp only [Option.getD, Except.error.injEq] at h
      exact Or.inl h.symm
    · simp only [Option.getD, Except.error.injEq] at h
      exact Or.inr (Or.inr (by rw [h]))
  | cons k rest ih =>
    unfold tryKeys at h
    revert h
    split
    · intro h
      exact absurd h (by simp)
    · rename_i e' heq
      intro h
      rcases ih (some e') h with h1 | ⟨k', hk', h2⟩ | h3
      · exact Or.inl h1
      · exact Or.inr (Or.inl ⟨k', List.mem_cons_of_mem k hk', h2⟩)
      · simp only [Option.some.injEq] at h3
        exact Or.inr (Or.inl ⟨k, List.mem_cons_self k rest, h3 ▸ heq⟩)

/-- Any error out of the cryptographic stage is one of the stage's own
literal messages or an error thrown by the external verifier. -/
theorem cryptoVerify_error_shape (ops : JoseOps) (p : SecEventParser)
    (jwt : String) (vkey : Option (SigningKey ⊕ List SigningKey))
    (jwtOptions : JWTVerifyOptions) (e : JsErr)
    (h : cryptoVerify ops p jwt vkey jwtOptions = .error e) :
    e = some "No verification key or JWKS URL provided" ∨
    e = some "No verification method available" ∨
    e = some "Verification failed with all provided keys" ∨
    (∃ key, ops.jwtVerifyWithKey jwt key jwtOptions = .error e) ∨
    (∃ u, ops.jwtVerifyWithJwks jwt u jwtOptions = .error e) := by
  simp only [cryptoVerify] at h
  split at h
  · simp only [Except.error.injEq] at h
    exact Or.inl h.symm
  · split at h
    · exact Or.inr (Or.inr (Or.inr (Or.inr ⟨_, h⟩)))
    · split at h
      · rcases tryKeys_error_shape ops jwt jwtOptions _ none e h with h1 | ⟨k, -, h2⟩ | h3
        · exact Or.inr (Or.inr (Or.inl h1))
        · exact Or.inr (Or.inr (Or.inr (Or.inl ⟨k.key, h2⟩)))
        · exact absurd h3 (by simp)
      · simp only [Except.error.injEq] at h
        exact Or.inr (Or.inl h.symm)

/-- The three possible outcomes of `verify`: a caught thrown value, a
non-empty validation-error list, or success. -/
theorem verify_cases (ops : JoseOps) (p : SecEventParser) (jwt : String)
    (vkey : Option (SigningKey ⊕ List SigningKey))
    (opts : Option ValidationOptions) :
    (∃ e, cryptoVerify ops p jwt vkey
        (mkJwtVerifyOptions (mergeValidationOptions p.options.defaultValidationOptions opts)) = .error e ∧
      verify ops p jwt vkey opts =
        { valid := false, error := some (jsErrMessage e) }) ∨
    (∃ payload errs,
      cryptoVerify ops p jwt vkey
        (mkJwtVerifyOptions (mergeValidationOptions p.options.defaultValidationOptions opts)) = .ok payload ∧
      validateSecEvent ops.urlProtocol payload
        (mergeValidationOptions p.options.defaultValidationOptions opts) = errs ∧
      errs ≠ [] ∧
      verify ops p jwt vkey opts =
        { valid := false, errors := some errs,
          error := some (String.intercalate "; " errs) }) ∨
    (∃ payload,
      cryptoVerify ops p jwt vkey
        (mkJwtVerifyOptions (mergeValidationOptions p.options.defaultValidationOptions opts)) = .ok payload ∧
      validateSecEvent ops.urlProtocol payload
        (mergeValidationOptions p.options.defaultValidationOptions opts) = [] ∧
      verify ops p jwt vkey opts = { valid := true, payload := some payload }) := by
  cases hcv : cryptoVerify ops p jwt vkey
      (mkJwtVerifyOptions (mergeValidationOptions p.options.defaultValidationOptions opts)) with
  | error e =>
    refine Or.inl ⟨e, rfl, ?_⟩
    simp only [verify]
    rw [hcv]
  | ok payload =>
    cases herr : validateSecEvent ops.urlProtocol payload
        (mergeValidationOptions p.options.defaultValidationOptions opts) with
    | nil =>
      refine Or.inr (Or.inr ⟨payload, rfl, herr, ?_⟩)
      simp only [verify]
      rw [hcv]
      simp [herr]
    | cons a as =>
      refine Or.inr (Or.inl ⟨payload, a :: as, rfl, herr, by simp, ?_⟩)
      simp only [verify]
      rw [hcv]
      simp [herr]

end SecEventParser

/-! Claim theorems. -/

open SecEventBuilder SecEventParser in
/-- C8: `reset()` restores issuer, audience, and signing key to the
constructor-configured values (or unset when not configured), clears
jti/iat/txn and empties the events and custom-claims mappings, for every
builder state; and no mutator ever changes the stored constructor
options, so this holds regardless of the mutators called since
construction. -/
theorem C8_reset_restores_configuration (b : SecEventBuilder) :
    b.reset.issuer = b.options.defaultIssuer ∧
    b.reset.audience = b.options.defaultAudience ∧
    b.reset.signingKey = b.options.signingKey ∧
    b.reset.jti = none ∧
    b.reset.iat = none ∧
    b.reset.txn = none ∧
    b.reset.events = [] ∧
    b.reset.additionalClaims = [] ∧
    (∀ opts, (createBuilder opts).options = opts) ∧
    (∀ s, (b.withIssuer s).options = b.options) ∧
    (∀ a, (b.withAudience a).options = b.options) ∧
    (∀ s, (b.withJti s).options = b.options) ∧
    (∀ n, (b.withIat n).options = b.options) ∧
    (∀ s, (b.withTxn s).options = b.options) ∧
    (∀ e, (b.withEvent e).options = b.options) ∧
    (∀ es, (b.withEvents es).options = b.options) ∧
    (∀ k v, (b.withClaim k v).options = b.options) ∧
    (∀ cs, (b.withClaims cs).options = b.options) ∧
    (∀ k, (b.withSigningKey k).options = b.options) := by
  refine ⟨rfl, rfl, rfl, rfl, rfl, rfl, rfl, rfl, fun _ => rfl, fun _ => rfl,
    fun _ => rfl, fun _ => rfl, fun _ => rfl, fun _ => rfl, fun _ => rfl,
    fun es => ?_, fun _ _ => rfl, fun _ => rfl, fun _ => rfl⟩
  induction es generalizing b with
  | nil => rfl
  | cons e rest ih => exact ih (b.withEvent e)

/-- C9 counterexample: `Events.sessionRevoked` called without a `reason`
produces an event record in which the key `reason` is present (bound to
`undefined`), not absent as the claim states. -/
theorem C9_counterexample_reason_key_present :
    Events.sessionRevoked (.str "user") 5 none =
      [(CAEP_EVENT_TYPES.SESSION_REVOKED,
        .obj [("subject", .str "user"), ("event_timestamp", .num 5),
              ("reason", .undef)])] ∧
    jsHas [("subject", JsValue.str "user"), ("event_timestamp", JsValue.num 5),
           ("reason", JsValue.undef)] "reason" = true :=
  ⟨rfl, by decide⟩

open Events in
/-- C9 (amended): every factory helper returns a single-entry mapping
keyed by its canonical URI with the supplied subject and timestamp; the
helpers that take an options bag (`credentialChange`,
`assuranceLevelChange`, `deviceComplianceChange`) leave omitted optional
fields absent, while `sessionRevoked`, `tokenClaimsChange`,
`streamUpdated` and `verification` write the optional field's key
unconditionally, binding it to `undefined` when the argument is
omitted. -/
theorem C9_factory_shapes (subject : JsValue) (timestamp : Int) :
    (∀ reason, sessionRevoked subject timestamp reason =
      [(CAEP_EVENT_TYPES.SESSION_REVOKED,
        .obj [("subject", subject), ("event_timestamp", .num timestamp),
              ("reason", jsOfOptStr reason)])]) ∧
    (∀ claims, tokenClaimsChange subject timestamp claims =
      [(CAEP_EVENT_TYPES.TOKEN_CLAIMS_CHANGE,
        .obj [("subject", subject), ("event_timestamp", .num timestamp),
              ("claims", jsOfOptObj claims)])]) ∧
    credentialChange subject timestamp none =
      [(CAEP_EVENT_TYPES.CREDENTIAL_CHANGE,
        .obj [("subject", subject), ("event_timestamp", .num timestamp)])] ∧
    (∀ opts, credentialChange subject timestamp (some opts) =
      [(CAEP_EVENT_TYPES.CREDENTIAL_CHANGE,
        .obj (jsSpread [("subject", subject), ("event_timestamp", .num timestamp)] opts))]) ∧
    assuranceLevelChange subject timestamp none =
      [(CAEP_EVENT_TYPES.ASSURANCE_LEVEL_CHANGE,
        .obj [("subject", subject), ("event_timestamp", .num timestamp)])] ∧
    (∀ opts, assuranceLevelChange subject timestamp (some opts) =
      [(CAEP_EVENT_TYPES.ASSURANCE_LEVEL_CHANGE,
        .obj (jsSpread [("subject", subject), ("event_timestamp", .num timestamp)] opts))]) ∧
    deviceComplianceChange subject timestamp none =
      [(CAEP_EVENT_TYPES.DEVICE_COMPLIANCE_CHANGE,
        .obj [("subject", subject), ("event_timestamp", .num timestamp)])] ∧
    (∀ opts, deviceComplianceChange subject timestamp (some opts) =
      [(CAEP_EVENT_TYPES.DEVICE_COMPLIANCE_CHANGE,
        .obj (jsSpread [("subject", subject), ("event_timestamp", .num timestamp)] opts))]) ∧
    streamUpdated none =
      [(SSF_EVENT_TYPES.STREAM_UPDATED, .obj [("effective_time", .undef)])] ∧
    (∀ t, streamUpdated (some t) =
      [(SSF_EVENT_TYPES.STREAM_UPDATED, .obj [("effective_time", .num t)])]) ∧
    verification none =
      [(SSF_EVENT_TYPES.VERIFICATION, .obj [("state", .undef)])] ∧
    (∀ s, verification (some s) =
      [(SSF_EVENT_TYPES.VERIFICATION, .obj [("state", .str s)])]) :=
  ⟨fun _ => rfl, fun _ => rfl, rfl, fun _ => rfl, rfl, fun _ => rfl, rfl,
    fun _ => rfl, rfl, fun _ => rfl, rfl, fun _ => rfl⟩

open SecEventBuilder in
/-- C1 counterexample: custom claims are spread after the reserved
fields, so `withClaim("iss", …)` overrides the configured issuer in the
built payload. -/
theorem C1_counterexample_custom_claim_overrides_iss :
    ((((createBuilder {}).withIssuer "https://good.example").withEvent
        [("https://e/x", .obj [])]).withClaim "iss"
        (.str "https://evil.example")).buildPayload "gen-1" 100 =
      .ok [("iss", .str "https://evil.example"), ("jti", .str "gen-1"),
           ("iat", .num 100), ("events", .obj [("https://e/x", .obj [])])] ∧
    JsValue.str "https://evil.example" ≠ JsValue.str "https://good.example" :=
  ⟨rfl, fun h => absurd (JsValue.str.inj h) (by decide)⟩

open SecEventBuilder in
/-- C1 (amended): in a successfully built payload, `iss`, `jti`, `iat`
and `events` equal the builder's reserved values only when the
custom-claims mapping does not name them — a custom claim with one of
those keys overrides the reserved value, because the custom claims are
spread last; only `aud` and `txn`, assigned after the spread, always win
when set (truthy); custom claims with novel keys are added unchanged. -/
theorem C1_amended_custom_claims_precedence (b : SecEventBuilder)
    (genId : String) (nowSec : Int)
    (hIss : truthyOptStr b.issuer = true) (hEv : b.events ≠ [])
    (hnd : (b.additionalClaims.map Prod.fst).Nodup) :
    ∃ p, b.buildPayload genId nowSec = .ok p ∧
      (jsHas b.additionalClaims "iss" = false →
        jsGet p "iss" = .str (b.issuer.getD "")) ∧
      (jsHas b.additionalClaims "iss" = true →
        jsGet p "iss" = jsGet b.additionalClaims "iss") ∧
      (jsHas b.additionalClaims "jti" = false →
        jsGet p "jti" = .str (jtiValue b.jti genId)) ∧
      (jsHas b.additionalClaims "jti" = true →
        jsGet p "jti" = jsGet b.additionalClaims "jti") ∧
      (jsHas b.additionalClaims "iat" = false →
        jsGet p "iat" = .num (iatValue b.iat nowSec)) ∧
      (jsHas b.additionalClaims "iat" = true →
        jsGet p "iat" = jsGet b.additionalClaims "iat") ∧
      (jsHas b.additionalClaims "events" = false →
        jsGet p "events" = .obj b.events) ∧
      (jsHas b.additionalClaims "events" = true →
        jsGet p "events" = jsGet b.additionalClaims "events") ∧
      (truthyOptVal b.audience = true → jsGet p "aud" = b.audience.getD .undef) ∧
      (truthyOptStr b.txn = true → jsGet p "txn" = .str (b.txn.getD "")) ∧
      (∀ key, key ∉ (["iss", "jti", "iat", "events", "aud", "txn"] : List String) →
        jsHas b.additionalClaims key = true →
        jsGet p key = jsGet b.additionalClaims key) := by
  obtain ⟨p, hok, hget⟩ := buildPayload_get b genId nowSec hIss hEv hnd
  refine ⟨p, hok, ?_, ?_, ?_, ?_, ?_, ?_, ?_, ?_, ?_, ?_, ?_⟩
  · intro h
    rw [hget]
    simp +decide [h, jsGet]
  · intro h
    rw [hget]
    simp +decide [h]
  · intro h
    rw [hget]
    simp +decide [h, jsGet]
  · intro h
    rw [hget]
    simp +decide [h]
  · intro h
    rw [hget]
    simp +decide [h, jsGet]
  · intro h
    rw [hget]
    simp +decide [h]
  · intro h
    rw [hget]
    simp +decide [h, jsGet]
  · intro h
    rw [hget]
    simp +decide [h]
  · intro h
    rw [hget]
    simp +decide [h]
  · intro h
    rw [hget]
    simp [h]
  · intro key hkey hhas
    simp only [List.mem_cons, List.not_mem_nil, or_false, not_or] at hkey
    obtain ⟨h1, h2, h3, h4, h5, h6⟩ := hkey
    rw [hget]
    simp [hhas, h5, h6]

open SecEventBuilder in
/-- Witness for C1 (amended) at a concrete builder. -/
theorem C1_amended_witness :
    ∃ p, (((createBuilder {}).withIssuer "https://issuer.example").withEvent
        [("https://e/x", .obj [])]).buildPayload "gen-1" 100 = .ok p ∧
      jsGet p "iss" = .str "https://issuer.example" := by
  obtain ⟨p, hok, h1, _⟩ :=
    C1_amended_custom_claims_precedence
      (((createBuilder {}).withIssuer "https://issuer.example").withEvent
        [("https://e/x", .obj [])]) "gen-1" 100 rfl
      (fun h => List.noConfusion h) List.nodup_nil
  exact ⟨p, hok, h1 rfl⟩

open SecEventBuilder in
/-- C5 counterexample: `buildPayload` uses JS truthiness, not "has been
set": an issuer explicitly set to `""` still fails with the
missing-issuer error, and an explicitly set `iat` of `0` (resp. a `jti`
of `""`) is replaced by the current time (resp. the generator value). -/
theorem C5_counterexample_falsy_values :
    ((((createBuilder {}).withIssuer "").withEvent
        [("https://e/x", .obj [])]).buildPayload "gen-1" 100 =
      .error (some "Issuer is required")) ∧
    (((createBuilder {}).withIssuer "").issuer = some "") ∧
    (((((createBuilder {}).withIssuer "https://i.example").withEvent
        [("https://e/x", .obj [])]).withIat 0).withJti "").buildPayload "gen-1" 100 =
      .ok [("iss", .str "https://i.example"), ("jti", .str "gen-1"),
           ("iat", .num 100), ("events", .obj [("https://e/x", .obj [])])] :=
  ⟨rfl, rfl, rfl⟩

open SecEventBuilder in
/-- C5 (amended): `buildPayload` fails with the missing-issuer error iff
the issuer field is unset or falsy (the empty string); given a truthy
issuer it fails with the no-events error iff the events mapping is
empty; otherwise (when the custom claims do not name the reserved keys)
it returns a payload whose `jti` is the set value when non-empty, else
the generator value (non-empty whenever the generator value is), whose
`iat` is the set value when non-zero, else the current time, and whose
`events` is the accumulated mapping. -/
theorem C5_amended_buildPayload_errors_and_defaults (b : SecEventBuilder)
    (genId : String) (nowSec : Int) :
    (b.buildPayload genId nowSec = .error (some "Issuer is required") ↔
      truthyOptStr b.issuer = false) ∧
    (truthyOptStr b.issuer = true →
      (b.buildPayload genId nowSec = .error (some "At least one event is required") ↔
        b.events = [])) ∧
    (truthyOptStr b.issuer = true → b.events ≠ [] →
      (b.additionalClaims.map Prod.fst).Nodup →
      jsHas b.additionalClaims "jti" = false →
      jsHas b.additionalClaims "iat" = false →
      jsHas b.additionalClaims "events" = false →
      ∃ p, b.buildPayload genId nowSec = .ok p ∧
        jsGet p "jti" = .str (jtiValue b.jti genId) ∧
        (genId ≠ "" → jtiValue b.jti genId ≠ "") ∧
        jsGet p "iat" = .num (iatValue b.iat nowSec) ∧
        jsGet p "events" = .obj b.events) := by
  refine ⟨?_, ?_, ?_⟩
  · cases hts : truthyOptStr b.issuer
    · unfold buildPayload
      simp [hts]
    · unfold buildPayload
      simp only [hts, Bool.not_true, Bool.false_eq_true, if_false]
      constructor
      · intro h
        split at h <;> simp_all +decide
      · intro h
        exact absurd h (by simp)
  · intro hts
    unfold buildPayload
    simp only [hts, Bool.not_true, Bool.false_eq_true, if_false]
    constructor
    · intro h
      split at h <;> simp_all +decide [jsKeysOf, List.length_eq_zero]
    · intro h
      simp [jsKeysOf, h]
  · intro hts hEv hnd hjti hiat hev
    obtain ⟨p, hok, hget⟩ := buildPayload_get b genId nowSec hts hEv hnd
    refine ⟨p, hok, ?_, ?_, ?_, ?_⟩
    · rw [hget]
      simp +decide [hjti, jsGet]
    · intro hgen
      cases hj : b.jti with
      | none => simpa [jtiValue] using hgen
      | some j =>
        by_cases hje : j = "" <;> simp [jtiValue, hje, hgen]
    · rw [hget]
      simp +decide [hiat, jsGet]
    · rw [hget]
      simp +decide [hev, jsGet]

open SecEventBuilder in
/-- Witness for C5 (amended) at a concrete builder. -/
theorem C5_amended_witness :
    ∃ p, (((createBuilder {}).withIssuer "https://issuer.example").withEvent
        [("https://e/x", .obj [])]).buildPayload "gen-2" 50 = .ok p ∧
      jsGet p "jti" = .str "gen-2" ∧ jsGet p "iat" = .num 50 := by
  obtain ⟨-, -, hmain⟩ :=
    C5_amended_buildPayload_errors_and_defaults
      (((createBuilder {}).withIssuer "https://issuer.example").withEvent
        [("https://e/x", .obj [])]) "gen-2" 50
  obtain ⟨p, hok, hjti, -, hiat, -⟩ :=
    hmain rfl (fun h => List.noConfusion h) List.nodup_nil rfl rfl rfl
  exact ⟨p, hok, hjti, hiat⟩

open SecEventParser in
/-- C3: `verify` always returns a `ValidationResult` (it is total by
construction, modelling the all-enclosing `try`/`catch`); the result has
`valid = true` exactly when the cryptographic stage succeeded and the
structural/semantic validation produced zero errors; and any value
thrown inside — in particular by the external verifier — is reported as
`{valid: false, error: message}`. -/
theorem C3_verify_never_throws_and_reports (ops : JoseOps) (p : SecEventParser)
    (jwt : String) (vkey : Option (SigningKey ⊕ List SigningKey))
    (opts : Option ValidationOptions) :
    ((verify ops p jwt vkey opts).valid = true ↔
      ∃ payload,
        cryptoVerify ops p jwt vkey
          (mkJwtVerifyOptions
            (mergeValidationOptions p.options.defaultValidationOptions opts)) =
          .ok payload ∧
        validateSecEvent ops.urlProtocol payload
          (mergeValidationOptions p.options.defaultValidationOptions opts) = []) ∧
    (∀ e,
      cryptoVerify ops p jwt vkey
        (mkJwtVerifyOptions
          (mergeValidationOptions p.options.defaultValidationOptions opts)) =
        .error e →
      verify ops p jwt vkey opts =
        { valid := false, error := some (jsErrMessage e) }) := by
  rcases verify_cases ops p jwt vkey opts with
    ⟨e, hcv, hv⟩ | ⟨payload, errs, hcv, herr, hne, hv⟩ | ⟨payload, hcv, herr, hv⟩
  · constructor
    · rw [hv]
      constructor
      · intro h
        exact absurd h (by simp)
      · rintro ⟨pl, hok, -⟩
        rw [hcv] at hok
        exact absurd hok (by simp)
    · intro e' he'
      rw [hcv] at he'
      simp only [Except.error.injEq] at he'
      rw [hv, he']
  · constructor
    · rw [hv]
      constructor
      · intro h
        exact absurd h (by simp)
      · rintro ⟨pl, hok, hval⟩
        rw [hcv] at hok
        simp only [Except.ok.injEq] at hok
        subst hok
        rw [herr] at hval
        exact absurd hval hne
    · intro e' he'
      rw [hcv] at he'
      exact absurd he' (by simp)
  · constructor
    · rw [hv]
      exact ⟨fun _ => ⟨payload, hcv, herr⟩, fun _ => rfl⟩
    · intro e' he'
      rw [hcv] at he'
      exact absurd he' (by simp)

/-- Witness for C3: a verifier that throws `"bad key"` on the only
configured key makes `verify` return exactly that message. -/
theorem C3_witness :
    SecEventParser.verify opsKeys parserStaticBad "tok" none none =
      { valid := false, error := some "bad key" } :=
  (C3_verify_never_throws_and_reports opsKeys parserStaticBad "tok" none none).2
    (some "bad key") rfl

open SecEventParser in
/-- C4: the key-trial loop tries candidates strictly in order — the
first key the external verifier accepts determines the payload no
matter what follows it; if every candidate fails, the loop fails with
the last observed verification error; an empty candidate list fails
with the generic message; and when no remote key set is configured the
cryptographic stage is exactly this loop over the selected keys. -/
theorem C4_key_trial_order (ops : JoseOps) (jwt : String)
    (jwtOptions : JWTVerifyOptions) :
    (∀ ks k rest payload,
      (∀ k' ∈ ks, ∀ pl, ops.jwtVerifyWithKey jwt k'.key jwtOptions ≠ .ok pl) →
      ops.jwtVerifyWithKey jwt k.key jwtOptions = .ok payload →
      ∀ lastError, tryKeys ops jwt jwtOptions (ks ++ k :: rest) lastError = .ok payload) ∧
    (∀ ks k e,
      (∀ k' ∈ ks, ∀ pl, ops.jwtVerifyWithKey jwt k'.key jwtOptions ≠ .ok pl) →
      ops.jwtVerifyWithKey jwt k.key jwtOptions = .error e →
      ∀ lastError, tryKeys ops jwt jwtOptions (ks ++ [k]) lastError = .error e) ∧
    (∀ lastError, tryKeys ops jwt jwtOptions [] lastError =
      .error (lastError.getD (some "Verification failed with all provided keys"))) ∧
    (∀ p vkey,
      p.jwks = none →
      cryptoVerify ops p jwt vkey jwtOptions =
        match selectedKeys vkey p.options with
        | some ks => tryKeys ops jwt jwtOptions ks none
        | none => .error (some "No verification key or JWKS URL provided")) := by
  refine ⟨?_, ?_, fun _ => rfl, ?_⟩
  · intro ks
    induction ks with
    | nil =>
      intro k rest payload _ hok lastError
      simp only [List.nil_append, tryKeys, hok]
    | cons a as ih =>
      intro k rest payload hfail hok lastError
      have ha : ∀ pl, ops.jwtVerifyWithKey jwt a.key jwtOptions ≠ .ok pl :=
        hfail a (List.mem_cons_self a as)
      simp only [List.cons_append, tryKeys]
      cases haa : ops.jwtVerifyWithKey jwt a.key jwtOptions with
      | ok pl => exact absurd haa (ha pl)
      | error e =>
        exact ih k rest payload
          (fun k' hk' => hfail k' (List.mem_cons_of_mem a hk')) hok (some e)
  · intro ks
    induction ks with
    | nil =>
      intro k e _ herr lastError
      simp only [List.nil_append, tryKeys, herr]
      rfl
    | cons a as ih =>
      intro k e hfail herr lastError
      have ha : ∀ pl, ops.jwtVerifyWithKey jwt a.key jwtOptions ≠ .ok pl :=
        hfail a (List.mem_cons_self a as)
      simp only [List.cons_append, tryKeys]
      cases haa : ops.jwtVerifyWithKey jwt a.key jwtOptions with
      | ok pl => exact absurd haa (ha pl)
      | error e' =>
        exact ih k e (fun k' hk' => hfail k' (List.mem_cons_of_mem a hk')) herr (some e')
  · intro p vkey hjwks
    simp only [cryptoVerify, hjwks]
    cases hsel : selectedKeys vkey p.options <;> simp [hsel]

/-- Witness for C4: with candidates `[bad, good]` the loop succeeds with
the payload accepted for the second key after the first fails. -/
theorem C4_witness :
    SecEventParser.tryKeys opsKeys "tok" {} [keyBad, keyGood] none = .ok goodPayload := by
  have h := (C4_key_trial_order opsKeys "tok" {}).1 [keyBad] keyGood [] goodPayload
    (fun k' hk' pl hok => by
      rw [List.mem_singleton.mp hk'] at hok
      exact Except.noConfusion hok)
    rfl none
  simpa using h

open SecEventParser in
/-- C2 counterexample: on a parser configured with a JWKS URL, `verify`
with an explicit key succeeds via the remote key set even though the
external verifier rejects the explicit key — the explicit key argument
does not take priority over the configured remote resolver. -/
theorem C2_counterexample_jwks_beats_explicit_key :
    verify opsJwksOk parserJwks "tok" (some (.inl keyGood)) none =
      { valid := true, payload := some goodPayload } ∧
    (∀ jo, opsJwksOk.jwtVerifyWithKey "tok" keyGood.key jo =
      .error (some "explicit key tried")) :=
  ⟨rfl, fun _ => rfl⟩

open SecEventParser in
/-- C2 (amended): a configured remote key-set resolver takes priority
over everything — when `jwks` is set the result of `verify` is
independent of the key argument; otherwise an explicit key argument
(single key or ordered sequence) is used, else the statically configured
keys, and with none of the three available the call fails with the
no-verification-method error. -/
theorem C2_amended_key_source_priority (ops : JoseOps) (p : SecEventParser)
    (jwt : String) (opts : Option ValidationOptions) :
    (∀ u, p.jwks = some u → ∀ vkey,
      verify ops p jwt vkey opts = verify ops p jwt none opts) ∧
    (p.jwks = none → ∀ k,
      cryptoVerify ops p jwt (some (.inl k))
        (mkJwtVerifyOptions
          (mergeValidationOptions p.options.defaultValidationOptions opts)) =
      tryKeys ops jwt
        (mkJwtVerifyOptions
          (mergeValidationOptions p.options.defaultValidationOptions opts)) [k] none) ∧
    (p.jwks = none → ∀ ks,
      cryptoVerify ops p jwt (some (.inr ks))
        (mkJwtVerifyOptions
          (mergeValidationOptions p.options.defaultValidationOptions opts)) =
      tryKeys ops jwt
        (mkJwtVerifyOptions
          (mergeValidationOptions p.options.defaultValidationOptions opts)) ks none) ∧
    (p.jwks = none → ∀ ks, p.options.verificationKeys = some ks →
      cryptoVerify ops p jwt none
        (mkJwtVerifyOptions
          (mergeValidationOptions p.options.defaultValidationOptions opts)) =
      tryKeys ops jwt
        (mkJwtVerifyOptions
          (mergeValidationOptions p.options.defaultValidationOptions opts)) ks none) ∧
    (p.jwks = none → p.options.verificationKeys = none →
      verify ops p jwt none opts =
        { valid := false,
          error := some "No verification key or JWKS URL provided" }) := by
  refine ⟨?_, ?_, ?_, ?_, ?_⟩
  · intro u hjwks vkey
    simp only [verify, cryptoVerify, hjwks]
    simp [selectedKeys]
  · intro hjwks k
    simp [cryptoVerify, hjwks, selectedKeys]
  · intro hjwks ks
    simp [cryptoVerify, hjwks, selectedKeys]
  · intro hjwks ks hstat
    simp [cryptoVerify, hjwks, selectedKeys, hstat]
  · intro hjwks hstat
    simp only [verify, cryptoVerify, hjwks, hstat, selectedKeys]
    simp [jsErrMessage]

/-- Witness for C2 (amended): with nothing configured and no key passed,
`verify` fails with the no-verification-method error. -/
theorem C2_amended_witness :
    SecEventParser.verify opsKeys parserPlain "tok" none none =
      { valid := false,
        error := some "No verification key or JWKS URL provided" } :=
  (C2_amended_key_source_priority opsKeys parserPlain "tok" none).2.2.2.2 rfl rfl

open SecEventParser in
/-- C6 counterexample: a payload whose `events` claim is an array — not
a mapping — passes the structural validation (`typeof [] === 'object'`),
so `decode` succeeds instead of failing with the missing-events
error. -/
theorem C6_counterexample_array_events_accepted :
    decode (opsDecode arrEventsPayload) "tok" = .ok arrEventsPayload ∧
    jsGet arrEventsPayload "events" = .arr [] :=
  ⟨rfl, rfl⟩

open SecEventParser in
/-- C6 (amended): `decode` propagates the underlying parse failure, and
otherwise applies the structural checks in order — events, issuer, jti,
iat — returning the corresponding error message, or the payload
unchanged when all pass; the events check accepts exactly the truthy
values of JS type `object`, i.e. (non-empty) objects and also arrays,
while the issuer/jti checks accept exactly non-empty strings and the
iat check exactly numbers. -/
theorem C6_amended_decode_structural (ops : JoseOps) (jwt : String) :
    (∀ e, ops.decodeJwt jwt = .error e → decode ops jwt = .error e) ∧
    (∀ payload, ops.decodeJwt jwt = .ok payload →
      (structEventsBad payload = true →
        decode ops jwt = .error (some "Missing or invalid events claim")) ∧
      (structEventsBad payload = false → structIssBad payload = true →
        decode ops jwt = .error (some "Missing or invalid issuer claim")) ∧
      (structEventsBad payload = false → structIssBad payload = false →
        structJtiBad payload = true →
        decode ops jwt = .error (some "Missing or invalid jti claim")) ∧
      (structEventsBad payload = false → structIssBad payload = false →
        structJtiBad payload = false → structIatBad payload = true →
        decode ops jwt = .error (some "Missing or invalid iat claim")) ∧
      (structEventsBad payload = false → structIssBad payload = false →
        structJtiBad payload = false → structIatBad payload = false →
        decode ops jwt = .ok payload)) ∧
    (∀ payload, structEventsBad payload = false ↔
      ((∃ m, jsGet payload "events" = .obj m) ∨
       (∃ l, jsGet payload "events" = .arr l))) ∧
    (∀ payload, structIssBad payload = false ↔
      (∃ s, jsGet payload "iss" = .str s ∧ s ≠ "")) ∧
    (∀ payload, structJtiBad payload = false ↔
      (∃ s, jsGet payload "jti" = .str s ∧ s ≠ "")) ∧
    (∀ payload, structIatBad payload = false ↔
      (∃ n, jsGet payload "iat" = .num n)) := by
  refine ⟨?_, ?_, ?_, ?_, ?_, ?_⟩
  · intro e he
    simp [decode, he, Bind.bind, Except.bind]
  · intro payload hp
    refine ⟨?_, ?_, ?_, ?_, ?_⟩
    · intro h1
      simp [decode, hp, validatePayloadStructure, Bind.bind, Except.bind, Functor.map, Except.map, h1]
    · intro h1 h2
      simp [decode, hp, validatePayloadStructure, Bind.bind, Except.bind, Functor.map, Except.map, h1, h2]
    · intro h1 h2 h3
      simp [decode, hp, validatePayloadStructure, Bind.bind, Except.bind, Functor.map, Except.map, h1, h2, h3]
    · intro h1 h2 h3 h4
      simp [decode, hp, validatePayloadStructure, Bind.bind, Except.bind, Functor.map, Except.map, h1, h2, h3, h4]
    · intro h1 h2 h3 h4
      simp [decode, hp, validatePayloadStructure, Bind.bind, Except.bind, Functor.map, Except.map,
        Pure.pure, Except.pure, h1, h2, h3, h4]
  · intro payload
    unfold structEventsBad
    cases jsGet payload "events" <;> simp [jsTruthy, jsTypeof]
  · intro payload
    unfold structIssBad
    cases jsGet payload "iss" <;> simp [jsTruthy, jsTypeof]
  · intro payload
    unfold structJtiBad
    cases jsGet payload "jti" <;> simp [jsTruthy, jsTypeof]
  · intro payload
    unfold structIatBad
    cases jsGet payload "iat" <;> simp [jsTypeof]

open SecEventParser in
/-- The invalid-URI error sublist contains exactly one entry for an
invalid key of a duplicate-free key list. -/
theorem uriErrors_count (urlP : String → Option String) (keys : List String)
    (k : String) (hnd : keys.Nodup) (hk : k ∈ keys)
    (hinv : isValidEventUri urlP k = false) :
    (keys.filterMap fun uri =>
      if isValidEventUri urlP uri then none
      else some ("Invalid event URI format: " ++ uri)).count
      ("Invalid event URI format: " ++ k) = 1 := by
  induction keys with
  | nil => cases hk
  | cons a as ih =>
    have hnd' : as.Nodup := (List.nodup_cons.mp hnd).2
    have hna : a ∉ as := (List.nodup_cons.mp hnd).1
    rcases List.mem_cons.mp hk with rfl | hk'
    · have hrest :
          (as.filterMap fun uri =>
            if isValidEventUri urlP uri then none
            else some ("Invalid event URI format: " ++ uri)).count
            ("Invalid event URI format: " ++ k) = 0 := by
        rw [List.count_eq_zero]
        intro hmem
        rcases List.mem_filterMap.mp hmem with ⟨k', hk', hsome⟩
        split_ifs at hsome
        simp only [Option.some.injEq] at hsome
        exact hna ((strAppendLeftCancel _ _ _ hsome) ▸ hk')
      simp [List.filterMap_cons, hinv, List.count_cons, hrest]
    · have hak : a ≠ k := fun h => hna (h ▸ hk')
      cases hva : isValidEventUri urlP a
      · have hne : "Invalid event URI format: " ++ a ≠ "Invalid event URI format: " ++ k :=
          fun h => hak (strAppendLeftCancel _ _ _ h)
        simp [List.filterMap_cons, hva, List.count_cons, ih hnd' hk', hne]
      · simp [List.filterMap_cons, hva, ih hnd' hk']

open SecEventParser in
/-- C7: during semantic validation, every key of the (object-valued)
events mapping that `isValidEventUri` rejects contributes the error
`"Invalid event URI format: <key>"` to the error list; with
duplicate-free keys, exactly one such error per invalid key; errors are
accumulated over all invalid keys; and if every key is a valid
`http`/`https` URL no error of that form appears. -/
theorem C7_invalid_event_uri_errors (urlP : String → Option String)
    (payload : JsObj) (opts : ValidationOptions)
    (m : List (String × JsValue)) (hm : jsGet payload "events" = .obj m) :
    (∀ k, k ∈ m.map Prod.fst → isValidEventUri urlP k = false →
      ("Invalid event URI format: " ++ k) ∈ validateSecEvent urlP payload opts) ∧
    ((m.map Prod.fst).Nodup →
      ∀ k, k ∈ m.map Prod.fst → isValidEventUri urlP k = false →
      (validateSecEvent urlP payload opts).count ("Invalid event URI format: " ++ k) = 1) ∧
    ((∀ k ∈ m.map Prod.fst, isValidEventUri urlP k = true) →
      ∀ str, ("Invalid event URI format: " ++ str) ∉ validateSecEvent urlP payload opts) := by
  refine ⟨?_, ?_, ?_⟩
  · intro k hk hinv
    simp only [validateSecEvent, hm]
    refine List.mem_append.mpr (Or.inr ?_)
    simp only [jsTruthy, if_true]
    refine List.mem_append.mpr (Or.inr ?_)
    exact List.mem_filterMap.mpr ⟨k, by simpa [jsKeysOf] using hk, by simp [hinv]⟩
  · intro hnd k hk hinv
    have hA : (match validatePayloadStructure payload with
        | .ok _ => ([] : List String)
        | .error e =>
          [match e with
           | some msg => msg
           | none => "Invalid payload structure"]).count
        ("Invalid event URI format: " ++ k) = 0 := by
      cases hvp : validatePayloadStructure payload with
      | ok u => simp
      | error e =>
        rcases e with - | msg
        · rw [List.count_eq_zero]
          intro hmem
          simp only [List.mem_singleton] at hmem
          exact strPrefixNeLit _ _ (by decide) (by decide) k hmem
        · rw [List.count_eq_zero]
          intro hmem
          simp only [List.mem_singleton] at hmem
          rcases validatePayloadStructure_error_shape payload _ hvp with h | h | h | h <;>
            (simp only [Option.some.injEq] at h; subst h;
             exact strPrefixNeLit _ _ (by decide) (by decide) k hmem)
    have hB : (match opts.requiredClaims with
        | some claims => claims.filterMap fun claim =>
            if jsHas payload claim then none
            else some ("Missing required claim: " ++ claim)
        | none => ([] : List String)).count
        ("Invalid event URI format: " ++ k) = 0 := by
      cases opts.requiredClaims with
      | none => simp
      | some claims =>
        rw [List.count_eq_zero]
        intro hmem
        rcases List.mem_filterMap.mp hmem with ⟨c, -, hsome⟩
        split_ifs at hsome
        simp only [Option.some.injEq] at hsome
        exact strAppendNe "Missing required claim: " "Invalid event URI format: "
          (by decide) (by decide) c k hsome
    have hCP : (if ((m.map Prod.fst).length == 0) = true
          then ["No events present in events claim"] else []).count
        ("Invalid event URI format: " ++ k) = 0 := by
      split
      · rw [List.count_eq_zero]
        intro hmem
        simp only [List.mem_singleton] at hmem
        exact strPrefixNeLit _ _ (by decide) (by decide) k hmem
      · simp
    have hU := uriErrors_count urlP (m.map Prod.fst) k hnd hk hinv
    simp only [validateSecEvent, hm, jsTruthy, if_true, jsKeysOf, List.count_append]
    simp only [hA, hB, hCP, hU]
  · intro hall str hmem
    rcases validateSecEvent_mem urlP payload opts _ hmem with
      h1 | h1 | h1 | h1 | h1 | ⟨c, h1⟩ | h1 | ⟨k, hk, hkinv, h1⟩
    · exact strPrefixNeLit _ _ (by decide) (by decide) str h1
    · exact strPrefixNeLit _ _ (by decide) (by decide) str h1
    · exact strPrefixNeLit _ _ (by decide) (by decide) str h1
    · exact strPrefixNeLit _ _ (by decide) (by decide) str h1
    · exact strPrefixNeLit _ _ (by decide) (by decide) str h1
    · exact strAppendNe _ _ (by decide) (by decide) str c h1
    · exact strPrefixNeLit _ _ (by decide) (by decide) str h1
    · rw [hm] at hk
      simp only [jsKeysOf] at hk
      rw [hall k hk] at hkinv
      exact Bool.noConfusion hkinv

open SecEventParser in
/-- Witness for C6 (amended): a well-formed payload decodes to itself. -/
theorem C6_amended_witness :
    decode (opsDecode goodPayload) "tok" = .ok goodPayload := by
  have h := ((C6_amended_decode_structural (opsDecode goodPayload) "tok").2.1
    goodPayload rfl).2.2.2.2
  exact h rfl rfl rfl rfl

open SecEventParser in
/-- Witness for C7 at a concrete payload with an invalid events key. -/
theorem C7_witness :
    ("Invalid event URI format: " ++ "not-a-url") ∈
      SecEventParser.validateSecEvent (fun _ => none) badUriPayload {} :=
  (C7_invalid_event_uri_errors (fun _ => none) badUriPayload {}
      [("not-a-url", .obj []), ("also-bad", .obj [])] rfl).1
    "not-a-url" (by decide) rfl

open SecEventParser in
/-- C10 counterexample: when the external verifier throws an `Error`
whose message is the empty string, `verify` returns a result whose
`error` field is present but empty, contradicting the claimed
non-emptiness. -/
theorem C10_counterexample_empty_error_message :
    SecEventParser.verify opsEmptyMsg parserPlain "tok" (some (.inl keyGood)) none =
      { valid := false, error := some "" } := rfl

open SecEventParser in
/-- C10 (amended): every result of `verify` has `payload` present
exactly when `valid` is true and `error` present exactly when `valid`
is false (so never both or neither); the `error` string is moreover
non-empty provided every message thrown by the external verifier is
non-empty — the messages produced by the parser itself always are. -/
theorem C10_amended_result_invariant (ops : JoseOps) (p : SecEventParser)
    (jwt : String) (vkey : Option (SigningKey ⊕ List SigningKey))
    (opts : Option ValidationOptions) :
    ((verify ops p jwt vkey opts).valid = true ↔
      (verify ops p jwt vkey opts).payload.isSome = true) ∧
    ((verify ops p jwt vkey opts).valid = false ↔
      (verify ops p jwt vkey opts).error.isSome = true) ∧
    ¬((verify ops p jwt vkey opts).payload.isSome = true ∧
      (verify ops p jwt vkey opts).error.isSome = true) ∧
    ((∀ key jo msg, ops.jwtVerifyWithKey jwt key jo = .error (some msg) → msg ≠ "") →
     (∀ u jo msg, ops.jwtVerifyWithJwks jwt u jo = .error (some msg) → msg ≠ "") →
     ∀ msg, (verify ops p jwt vkey opts).error = some msg → msg ≠ "") := by
  rcases verify_cases ops p jwt vkey opts with
    ⟨e, hcv, hv⟩ | ⟨payload, errs, hcv, herr, hne, hv⟩ | ⟨payload, hcv, herr, hv⟩
  · refine ⟨by rw [hv]; simp, by rw [hv]; simp, by rw [hv]; simp, ?_⟩
    intro hks hjw msg hmsg
    rw [hv] at hmsg
    simp only [Option.some.injEq] at hmsg
    subst hmsg
    rcases cryptoVerify_error_shape ops p jwt vkey _ e hcv with
      h | h | h | ⟨key, heq⟩ | ⟨u, heq⟩
    · subst h
      decide
    · subst h
      decide
    · subst h
      decide
    · rcases e with - | m
      · decide
      · exact hks key _ m heq
    · rcases e with - | m
      · decide
      · exact hjw u _ m heq
  · refine ⟨by rw [hv]; simp, by rw [hv]; simp, by rw [hv]; simp, ?_⟩
    intro _ _ msg hmsg
    rw [hv] at hmsg
    simp only [Option.some.injEq] at hmsg
    subst hmsg
    refine intercalateNeEmpty errs hne ?_
    intro x hx
    refine validateSecEvent_mem_ne_empty ops.urlProtocol payload
      (mergeValidationOptions p.options.defaultValidationOptions opts) x ?_
    rw [herr]
    exact hx
  · refine ⟨by rw [hv]; simp, by rw [hv]; simp, by rw [hv]; simp, ?_⟩
    intro _ _ msg hmsg
    rw [hv] at hmsg
    exact absurd hmsg (by simp)

open SecEventParser in
/-- Witness for C10 (amended): with a verifier oracle that always throws
a non-empty message, the result's error, when present, is non-empty. -/
theorem C10_amended_witness :
    ∀ msg, (SecEventParser.verify opsKeys parserStaticBad "tok" none none).error =
      some msg → msg ≠ "" := by
  refine (C10_amended_result_invariant opsKeys parserStaticBad "tok" none none).2.2.2 ?_ ?_
  · intro key jo msg heq
    unfold opsKeys at heq
    dsimp only at heq
    split at heq
    · exact absurd heq (by simp)
    · simp only [Except.error.injEq, Option.some.injEq] at heq
      rw [← heq]
      decide
  · intro u jo msg heq
    exact absurd heq (by simp [opsKeys])

end SecEvent
